import Mathlib

/-!
Verification of the market/economic simulation engine of a small
real-estate investment game.  The Python sources (src/game/property.py,
src/game/market.py, src/game/player.py) are shallowly embedded below:
pure numeric code becomes functions over the rationals, the mutation of
engine state becomes explicit state passing, every call to the ambient
pseudo-random source becomes an explicit draw parameter (with interval
hypotheses mirroring what the random primitive guarantees), and code
that can raise a Python exception returns an Option.
-/

set_option maxHeartbeats 1000000

/-! ## Property valuation unit (src/game/property.py) -/

/-- Embedding of the Python class Property.  The constructor of the
Python class stores the seven arguments and draws the expense ratio
once as 0.35 plus a uniform value in the interval from -0.05 to 0.05;
here the already-drawn ratio is a field (set to 0.35 + expense_var by
the generating code below). -/
structure Property where
  property_type : String
  address : String
  units : ℚ
  price_per_unit : ℚ
  management_fee_percent : ℚ
  rent_per_unit : ℚ
  maintenance_per_unit : ℚ
  expense_ratio : ℚ
deriving DecidableEq

/-- total_price property: units times price_per_unit. -/
def Property.total_price (p : Property) : ℚ :=
  p.units * p.price_per_unit

/-- gross_income property: units times rent_per_unit, times 12. -/
def Property.gross_income (p : Property) : ℚ :=
  (p.units * p.rent_per_unit) * 12

/-- management_fee property: gross income times fee percent over 100.
Computed by the source but never subtracted from income. -/
def Property.management_fee (p : Property) : ℚ :=
  p.gross_income * (p.management_fee_percent / 100)

/-- total_expenses property: gross income times the stored expense ratio. -/
def Property.total_expenses (p : Property) : ℚ :=
  p.gross_income * p.expense_ratio

/-- net_income property: gross income minus total expenses. -/
def Property.net_income (p : Property) : ℚ :=
  p.gross_income - p.total_expenses

/-- cap_rate property: guarded division, 0 when total price is 0. -/
def Property.cap_rate (p : Property) : ℚ :=
  if p.total_price = 0 then 0 else (p.net_income / p.total_price) * 100

/-! ## Claims about the valuation unit -/

/-- C3: for every Property, the cap rate is 0 when the total price
(units times price per unit) is 0, and otherwise equals net income
divided by total price times 100 exactly, with net income equal to
gross income minus gross income times the expense ratio and gross
income equal to units times rent per unit times 12.  The embedded
computation is a total function, so it never raises; the division is
reached only under the guard that the denominator is nonzero. -/
theorem C3_cap_rate_formula (p : Property) :
    p.cap_rate =
      if p.units * p.price_per_unit = 0 then 0
      else
        (((p.units * p.rent_per_unit * 12) -
            (p.units * p.rent_per_unit * 12) * p.expense_ratio) /
          (p.units * p.price_per_unit)) * 100 := by
  simp only [Property.cap_rate, Property.total_price, Property.net_income,
    Property.gross_income, Property.total_expenses]

/-- C10: net income and cap rate do not depend on the management fee
rate or on the maintenance cost: two Property values agreeing on units,
price per unit, rent per unit and expense ratio have equal net_income
and equal cap_rate, whatever their management_fee_percent and
maintenance_per_unit are, because total expenses are gross income times
the expense ratio only. -/
theorem C10_net_income_cap_rate_independent (p q : Property)
    (hu : p.units = q.units)
    (hp : p.price_per_unit = q.price_per_unit)
    (hr : p.rent_per_unit = q.rent_per_unit)
    (he : p.expense_ratio = q.expense_ratio) :
    p.net_income = q.net_income ∧ p.cap_rate = q.cap_rate := by
  simp only [Property.cap_rate, Property.net_income, Property.total_price,
    Property.gross_income, Property.total_expenses]
  rw [hu, hp, hr, he]
  exact ⟨rfl, rfl⟩

/-- Witness for C10 at two concrete Property values that differ in
management fee and maintenance cost but agree on the other inputs. -/
theorem C10_witness :
    let p : Property :=
      { property_type := "Duplex", address := "a", units := 2,
        price_per_unit := 200000, management_fee_percent := 5,
        rent_per_unit := 1500, maintenance_per_unit := 200,
        expense_ratio := 35/100 }
    let q : Property :=
      { property_type := "Duplex", address := "b", units := 2,
        price_per_unit := 200000, management_fee_percent := 8,
        rent_per_unit := 1500, maintenance_per_unit := 800,
        expense_ratio := 35/100 }
    p.net_income = q.net_income ∧ p.cap_rate = q.cap_rate :=
  C10_net_income_cap_rate_independent _ _ rfl rfl rfl rfl

/-! ## Market analytics engine (src/game/market.py): data model -/

/-- Python int() applied to a rational value: truncation toward zero
(Int.ediv by the positive denominator is floor division, negated for
negative arguments). -/
def pyInt (q : ℚ) : ℤ :=
  if 0 ≤ q then q.num.ediv (q.den : ℤ) else -((-q.num).ediv (q.den : ℤ))

/-- generate_units from src/game/property.py: dict lookup keyed on the
property type with default 1.  The random unit counts drawn for the
Apartment and Apartment Complex entries are passed in as units_draw. -/
def generate_units (property_type : String) (units_draw : ℚ) : ℚ :=
  if property_type = "Duplex" then 2
  else if property_type = "Triplex" then 3
  else if property_type = "Fourplex" then 4
  else if property_type = "Apartment" then units_draw
  else if property_type = "Apartment Complex" then units_draw
  else 1

/-- Embedding of the dataclass MarketSnapshot.  The Python dataclass
has exactly the first six fields; get_latest_market_data additionally
sets a temperature attribute on stored snapshot objects at query time,
which is modelled by the optional last field (none until set). -/
structure MarketSnapshot where
  property_type : String
  avg_price_per_unit : ℚ
  avg_rent_per_unit : ℚ
  avg_cap_rate : ℚ
  inventory : ℤ
  days_on_market : ℚ
  temperature : Option String := none
deriving DecidableEq

/-- The market_conditions dict of MarketAnalytics. -/
structure MarketConditions where
  trend : String
  interest_rates : ℚ
  unemployment : ℚ
deriving DecidableEq

/-- The three trend labels, in the order of the Python list literals. -/
def trend_strings : List String := ["bull", "bear", "stable"]

/-- Random draws consumed by MarketAnalytics.__init__. -/
structure InitDraw where
  trend_pick : Fin 3
  ir : ℚ
  un : ℚ

/-- MarketAnalytics.__init__: trend chosen from the three labels,
interest rate drawn uniformly in the interval 2.5 to 7.5, unemployment
drawn uniformly in the interval 3.0 to 10.0 (the interval bounds
become hypotheses on the draw where a claim needs them). -/
def init_conditions (d : InitDraw) : MarketConditions :=
  { trend := trend_strings.get ⟨d.trend_pick.val, d.trend_pick.isLt⟩
    interest_rates := d.ir
    unemployment := d.un }

/-- Random draws consumed by one _update_market_conditions call. -/
structure MutDraw where
  d_ir : ℚ
  d_un : ℚ
  change_trend : Bool
  pick : Fin 2

/-- _update_market_conditions: drift and clamp interest rate and
unemployment; with the 20 percent branch taken (change_trend), choose
among the two remaining trends after removing the current one.  The
getD fallback is dead for reachable states, where the erased list has
exactly two elements; Python would raise there instead. -/
def update_market_conditions (d : MutDraw) (c : MarketConditions) : MarketConditions :=
  let ir := max 2.5 (min 10.0 (c.interest_rates + d.d_ir))
  let un := max 3.0 (min 15.0 (c.unemployment + d.d_un))
  let trend :=
    if d.change_trend then
      (((trend_strings.erase c.trend).get? d.pick.val).getD c.trend)
    else c.trend
  { trend := trend, interest_rates := ir, unemployment := un }

/-- The seasonal-factor dict built by _calculate_seasonal_factors,
as a partial lookup table. -/
def seasonal_factor_table (k : ℤ) : Option ℚ :=
  if k = 1 then some 0.95 else if k = 2 then some 0.97
  else if k = 3 then some 1.03 else if k = 4 then some 1.05
  else if k = 5 then some 1.07 else if k = 6 then some 1.06
  else if k = 7 then some 1.04 else if k = 8 then some 1.02
  else if k = 9 then some 1.01 else if k = 10 then some 1.00
  else if k = 11 then some 0.98 else if k = 12 then some 0.96
  else none

/-- The key expression month mod 12 or 12 used in
_get_economic_multipliers (Python mod on ints agrees with Int.emod for
the positive modulus 12; the or yields 12 when the remainder is 0). -/
def month_index (month : ℤ) : ℤ :=
  if month % 12 = 0 then 12 else month % 12

/-- The seasonal factor consumed by the multiplier derivation:
dict .get with default 1.0. -/
def seasonal_factor (month : ℤ) : ℚ :=
  (seasonal_factor_table (month_index month)).getD 1.0

/-- The dict returned by _get_economic_multipliers. -/
structure Multipliers where
  price : ℚ
  rent : ℚ
  inventory : ℚ
deriving DecidableEq

/-- The trend_map dict lookup; none models the KeyError raised on a
trend label outside the three known ones. -/
def trend_map_get (t : String) : Option ℚ :=
  if t = "bull" then some 1.02
  else if t = "bear" then some 0.98
  else if t = "stable" then some 1.0
  else none

/-- _get_economic_multipliers with the uniform fluctuation draw in the
interval 0.98 to 1.02 passed explicitly; shared by the price and rent
factors as in the source. -/
def get_economic_multipliers (c : MarketConditions) (month : ℤ)
    (fluctuation : ℚ) : Option Multipliers :=
  let seasonal := seasonal_factor month
  let rate_impact := 1.0 - (c.interest_rates - 4.0) / 100
  let employment_impact := 1.0 - (c.unemployment - 5.0) / 200
  match trend_map_get c.trend with
  | none => none
  | some trend =>
      some { price := seasonal * rate_impact * trend * fluctuation
             rent := seasonal * employment_impact * fluctuation
             inventory := 1.0 / (seasonal * trend) }

/-! ## Sampling and aggregation -/

/-- Random draws consumed for one sample property inside
generate_monthly_samples (including the draws made inside
_generate_property_with_economics and Property.__init__). -/
structure SampleDraw where
  price_jitter : ℚ
  rent_jitter : ℚ
  units_draw : ℚ
  price_base : ℚ
  mgmt_fee : ℚ
  rent_base : ℚ
  maint : ℚ
  expense_var : ℚ
  distressed : Bool
  distress_price : ℚ
  distress_rent : ℚ
  available : Bool
  dom : ℤ
deriving DecidableEq

/-- _generate_property_with_economics: jitter the price and rent
multipliers, build the Property (int casts on price and rent), then
apply the 15 percent distress adjustment when that branch fires. -/
def generate_property_with_economics (prop_type : String)
    (factors : Multipliers) (d : SampleDraw) : Property :=
  let price_mult := factors.price * d.price_jitter
  let rent_mult := factors.rent * d.rent_jitter
  let prop : Property :=
    { property_type := prop_type
      address := "MARKET_SAMPLE"
      units := generate_units prop_type d.units_draw
      price_per_unit := (pyInt (d.price_base * price_mult) : ℚ)
      management_fee_percent := d.mgmt_fee
      rent_per_unit := (pyInt (d.rent_base * rent_mult) : ℚ)
      maintenance_per_unit := d.maint
      expense_ratio := 0.35 + d.expense_var }
  if d.distressed then
    { prop with price_per_unit := prop.price_per_unit * d.distress_price
                rent_per_unit := prop.rent_per_unit * d.distress_rent }
  else prop

/-- np.mean of a list of rationals (sum over length; the empty case,
where numpy yields nan, is unreachable since sample sizes are at
least 80). -/
def listMean (l : List ℚ) : ℚ :=
  l.sum / (l.length : ℚ)

/-- The fixed category list of generate_monthly_samples. -/
def property_types : List String :=
  ["Duplex", "Triplex", "Fourplex", "Apartment", "Apartment Complex"]

/-- One iteration of the per-category loop of generate_monthly_samples:
generate one property per draw, then aggregate prices, rents, cap
rates, availability flags and days-on-market into a MarketSnapshot.
The sample size drawn in the interval 80 to 120 is the length of the
draw list. -/
def make_snapshot (prop_type : String) (factors : Multipliers)
    (draws : List SampleDraw) : MarketSnapshot :=
  let props := draws.map (generate_property_with_economics prop_type factors)
  { property_type := prop_type
    avg_price_per_unit := listMean (props.map (fun p => p.price_per_unit))
    avg_rent_per_unit := listMean (props.map (fun p => p.rent_per_unit))
    avg_cap_rate := listMean (props.map Property.cap_rate)
    inventory := (draws.map (fun d => if d.available then (1 : ℤ) else 0)).sum
    days_on_market := listMean (draws.map (fun d => (d.dom : ℚ)))
    temperature := none }

/-! ## Engine state and history -/

/-- The history dict of MarketAnalytics, as an association list in
insertion order; Python dict keys are distinct in every reachable
state. -/
abbrev History := List (ℤ × List MarketSnapshot)

/-- Dict lookup history, month (first entry with the key; total with
default empty, the KeyError case being unreachable where used). -/
def dict_get (h : History) (m : ℤ) : List MarketSnapshot :=
  ((h.find? (fun p => p.1 == m)).map Prod.snd).getD []

/-- Dict assignment history, month: overwrite in place when the key
exists (keeping its position, as Python dicts do), append otherwise. -/
def history_set (h : History) (m : ℤ) (v : List MarketSnapshot) : History :=
  if h.any (fun p => p.1 == m) then
    h.map (fun p => if p.1 == m then (m, v) else p)
  else h ++ [(m, v)]

/-- The mutable state of a MarketAnalytics instance (the seasonal
factor table is a constant and lives as a plain function above). -/
structure MarketState where
  history : History
  market_conditions : MarketConditions
deriving DecidableEq

/-- Random draws consumed by one generate_monthly_samples call: the
multiplier fluctuation, the 10 percent mutation coin and the mutation
draws, and one draw list per category (of the drawn sample size). -/
structure MonthDraw where
  fluctuation : ℚ
  mutate : Bool
  mutDraw : MutDraw
  catDraws : String → List SampleDraw

/-- generate_monthly_samples: compute the economic multipliers for the
month FIRST (line 72 of market.py), then flip the 10 percent mutation
coin (lines 75 and 76), then sample and aggregate each category with
the multipliers computed before the mutation, store the snapshot list
under the month (overwriting), and return it.  The sampling loop never
reads market_conditions, so carrying the mutated conditions out in the
final state is observationally the order of the source.  none models
the KeyError on an unknown trend label inside the multiplier
derivation. -/
def generate_monthly_samples (st : MarketState) (current_month : ℤ)
    (d : MonthDraw) : Option (List MarketSnapshot × MarketState) :=
  match get_economic_multipliers st.market_conditions current_month d.fluctuation with
  | none => none
  | some economic_factors =>
      let conditions :=
        if d.mutate then update_market_conditions d.mutDraw st.market_conditions
        else st.market_conditions
      let monthly_data :=
        property_types.map (fun pt => make_snapshot pt economic_factors (d.catDraws pt))
      some (monthly_data,
            { history := history_set st.history current_month monthly_data
              market_conditions := conditions })

/-! ## Queries -/

/-- _calculate_market_temperature: hot below 30 days and 10 units of
inventory, cold above 60 days and 25 units, balanced otherwise. -/
def calculate_market_temperature (s : MarketSnapshot) : String :=
  if s.days_on_market < 30 ∧ s.inventory < 10 then "Hot Market"
  else if 60 < s.days_on_market ∧ 25 < s.inventory then "Cold Market"
  else "Balanced Market"

/-- max over the history keys (used on nonempty history only; the
getD default is dead there). -/
def latest_key (h : History) : ℤ :=
  ((h.map Prod.fst).max?).getD 0

/-- get_latest_market_data: on nonempty history, look up the latest
month and set the temperature attribute on each stored snapshot; the
Python loop mutates the stored objects in place, so the updated list
is both returned and written back into the stored history here. -/
def get_latest_market_data (st : MarketState) : List MarketSnapshot × MarketState :=
  if st.history = [] then ([], st)
  else
    let m := latest_key st.history
    let data := dict_get st.history m
    let annotated :=
      data.map (fun s => { s with temperature := some (calculate_market_temperature s) })
    (annotated, { st with history := history_set st.history m annotated })

/-- sorted(self.history.keys()) of get_market_trend. -/
def sorted_months (h : History) : List ℤ :=
  (h.map Prod.fst).insertionSort (fun a b => a ≤ b)

/-- months[-1-i]: the i-th key from the end of the ascending key list
(indexing from the end never misses under the length guards of
get_market_trend, so the getD default is dead there). -/
def trend_month (h : History) (i : ℕ) : ℤ :=
  (((sorted_months h).reverse).get? i).getD 0

/-- The next(...) generator expression of get_market_trend: first
snapshot of the list with the wanted property type, if any. -/
def find_snapshot (prop_type : String) (l : List MarketSnapshot) :
    Option MarketSnapshot :=
  l.find? (fun x => x.property_type == prop_type)

/-- get_market_trend: 0.0 under two months of history; otherwise the
percentage change of avg_price_per_unit between the two most recent
months (0.0 when either lacks the category), blended with the previous
pairwise change weighted 0.7 and 0.3 when a third prior month holds
the category. -/
def get_market_trend (h : History) (prop_type : String) : ℚ :=
  if h.length < 2 then 0
  else
    let current_month := trend_month h 0
    let previous_month := trend_month h 1
    match find_snapshot prop_type (dict_get h current_month),
          find_snapshot prop_type (dict_get h previous_month) with
    | some current, some previous =>
        let price_change :=
          ((current.avg_price_per_unit - previous.avg_price_per_unit) /
            previous.avg_price_per_unit) * 100
        if 2 < h.length then
          match find_snapshot prop_type (dict_get h (trend_month h 2)) with
          | some older =>
              price_change * 0.7 +
                (((previous.avg_price_per_unit - older.avg_price_per_unit) /
                  older.avg_price_per_unit) * 100) * 0.3
          | none => price_change
        else price_change
    | _, _ => 0

/-- Python max(iterable, key=...): none on the empty list (ValueError
in Python), otherwise the scan keeping the current best and replacing
it only on a strictly greater key, which returns the first-encountered
maximal element. -/
def pyMaxBy {α : Type} (key : α → ℚ) : List α → Option α
  | [] => none
  | x :: xs => some (xs.foldl (fun acc y => if key acc < key y then y else acc) x)

/-- get_best_investment: None on empty history, otherwise the max by
avg_cap_rate over the latest annotated snapshot list (which mutates
stored state through get_latest_market_data). -/
def get_best_investment (st : MarketState) : Option MarketSnapshot × MarketState :=
  if st.history = [] then (none, st)
  else
    let r := get_latest_market_data st
    (pyMaxBy (fun x => x.avg_cap_rate) r.1, r.2)

/-! ## Invariant of the market conditions -/

/-- The invariant claimed for MarketConditions: interest rate within
2.5 and 10.0, unemployment within 3.0 and 15.0, trend one of the three
labels. -/
def conditions_inv (c : MarketConditions) : Prop :=
  2.5 ≤ c.interest_rates ∧ c.interest_rates ≤ 10 ∧
  3 ≤ c.unemployment ∧ c.unemployment ≤ 15 ∧ c.trend ∈ trend_strings

lemma clamp_bounds (lo hi x : ℚ) (hlh : lo ≤ hi) :
    lo ≤ max lo (min hi x) ∧ max lo (min hi x) ≤ hi :=
  ⟨le_max_left _ _, max_le hlh (min_le_left _ _)⟩

lemma update_market_conditions_inv (d : MutDraw) (c : MarketConditions)
    (h : c.trend ∈ trend_strings) : conditions_inv (update_market_conditions d c) := by
  have hir := clamp_bounds 2.5 10.0 (c.interest_rates + d.d_ir) (by norm_num)
  have hun := clamp_bounds 3.0 15.0 (c.unemployment + d.d_un) (by norm_num)
  simp only [conditions_inv, update_market_conditions]
  refine ⟨hir.1, by linarith [hir.2], by linarith [hun.1], by linarith [hun.2], ?_⟩
  have hv : d.pick.val = 0 ∨ d.pick.val = 1 := by
    have := d.pick.isLt; omega
  by_cases hb : d.change_trend
  · simp only [trend_strings, List.mem_cons, List.not_mem_nil, or_false] at h
    rcases h with h | h | h <;> rcases hv with hv | hv <;>
      simp +decide [update_market_conditions, hb, h, hv, trend_strings]
  · simpa [update_market_conditions, hb] using h

lemma update_changes_trend (d : MutDraw) (c : MarketConditions)
    (h : c.trend ∈ trend_strings) (hb : d.change_trend = true) :
    (update_market_conditions d c).trend ≠ c.trend := by
  have hv : d.pick.val = 0 ∨ d.pick.val = 1 := by
    have := d.pick.isLt; omega
  simp only [trend_strings, List.mem_cons, List.not_mem_nil, or_false] at h
  rcases h with h | h | h <;> rcases hv with hv | hv <;>
    simp +decide [update_market_conditions, hb, h, hv, trend_strings]

lemma foldl_update_inv (ds : List MutDraw) (c : MarketConditions)
    (h : conditions_inv c) :
    conditions_inv (ds.foldl (fun c d => update_market_conditions d c) c) := by
  induction ds generalizing c with
  | nil => exact h
  | cons d ds ih => exact ih _ (update_market_conditions_inv d c h.2.2.2.2)

/-- C8: after initialization (with the init draws in the documented
uniform ranges) and after any number of macro mutations, the market
conditions satisfy: interest rate within 2.5 and 10.0, unemployment
within 3.0 and 15.0, and trend among bull, bear and stable; moreover
whenever the 20 percent trend-change branch is taken from a reachable
trend, the new trend differs from the trend before the mutation. -/
theorem C8_conditions_invariant (d0 : InitDraw)
    (h1 : 2.5 ≤ d0.ir) (h2 : d0.ir ≤ 7.5) (h3 : 3 ≤ d0.un) (h4 : d0.un ≤ 10)
    (ds : List MutDraw) :
    conditions_inv (ds.foldl (fun c d => update_market_conditions d c) (init_conditions d0)) ∧
    ∀ (c : MarketConditions) (d : MutDraw), c.trend ∈ trend_strings →
      d.change_trend = true → (update_market_conditions d c).trend ≠ c.trend := by
  constructor
  · apply foldl_update_inv
    simp only [conditions_inv, init_conditions]
    refine ⟨h1, by linarith, h3, by linarith, List.get_mem _ _ _⟩
  · exact fun c d hc hd => update_changes_trend d c hc hd

/-- Witness for C8 at a concrete init draw and one concrete mutation
with the trend-change branch taken. -/
theorem C8_witness :
    conditions_inv
      (([{ d_ir := 1/10, d_un := 1/10, change_trend := true, pick := 0 }] :
          List MutDraw).foldl (fun c d => update_market_conditions d c)
        (init_conditions { trend_pick := 0, ir := 5, un := 5 })) ∧
    (update_market_conditions
        { d_ir := 1/10, d_un := 1/10, change_trend := true, pick := 0 }
        { trend := "bull", interest_rates := 5, unemployment := 5 }).trend ≠ "bull" :=
  ⟨(C8_conditions_invariant { trend_pick := 0, ir := 5, un := 5 }
      (by norm_num) (by norm_num) (by norm_num) (by norm_num) _).1,
   (C8_conditions_invariant { trend_pick := 0, ir := 5, un := 5 }
      (by norm_num) (by norm_num) (by norm_num) (by norm_num) []).2
     { trend := "bull", interest_rates := 5, unemployment := 5 }
     { d_ir := 1/10, d_un := 1/10, change_trend := true, pick := 0 }
     (by simp [trend_strings]) rfl⟩

/-! ## Seasonal factor claims -/

/-- C9: the seasonal factor used by the multiplier derivation is
invariant under shifting the month by any multiple of 12, and on
months 1 through 12 it equals the fixed table. -/
theorem C9_seasonal_factor_periodic (m : ℤ) (k : ℕ) :
    seasonal_factor (m + 12 * k) = seasonal_factor m ∧
    (seasonal_factor 1 = 0.95 ∧ seasonal_factor 2 = 0.97 ∧
     seasonal_factor 3 = 1.03 ∧ seasonal_factor 4 = 1.05 ∧
     seasonal_factor 5 = 1.07 ∧ seasonal_factor 6 = 1.06 ∧
     seasonal_factor 7 = 1.04 ∧ seasonal_factor 8 = 1.02 ∧
     seasonal_factor 9 = 1.01 ∧ seasonal_factor 10 = 1.00 ∧
     seasonal_factor 11 = 0.98 ∧ seasonal_factor 12 = 0.96) := by
  constructor
  · have h : (m + 12 * (k : ℤ)) % 12 = m % 12 := by omega
    simp only [seasonal_factor, month_index, h]
  · exact ⟨rfl, rfl, rfl, rfl, rfl, rfl, rfl, rfl, rfl, rfl, rfl, rfl⟩

/-! ## Bounds helpers for the aggregation -/

lemma indicator_sum_bounds (l : List SampleDraw) :
    0 ≤ (l.map (fun d => if d.available then (1 : ℤ) else 0)).sum ∧
    (l.map (fun d => if d.available then (1 : ℤ) else 0)).sum ≤ (l.length : ℤ) := by
  induction l with
  | nil => simp
  | cons x xs ih =>
    simp only [List.map_cons, List.sum_cons, List.length_cons]
    constructor
    · have := ih.1
      by_cases hx : x.available <;> simp [hx] <;> linarith
    · have := ih.2
      by_cases hx : x.available <;> simp [hx] <;> push_cast <;> linarith

lemma list_sum_lower (a : ℚ) (l : List ℚ) (h : ∀ x ∈ l, a ≤ x) :
    a * (l.length : ℚ) ≤ l.sum := by
  induction l with
  | nil => simp
  | cons x xs ih =>
    simp only [List.sum_cons, List.length_cons]
    have hx := h x (List.mem_cons_self _ _)
    have hxs := ih (fun y hy => h y (List.mem_cons_of_mem _ hy))
    push_cast
    nlinarith [hx, hxs]

lemma list_sum_upper (b : ℚ) (l : List ℚ) (h : ∀ x ∈ l, x ≤ b) :
    l.sum ≤ b * (l.length : ℚ) := by
  induction l with
  | nil => simp
  | cons x xs ih =>
    simp only [List.sum_cons, List.length_cons]
    have hx := h x (List.mem_cons_self _ _)
    have hxs := ih (fun y hy => h y (List.mem_cons_of_mem _ hy))
    push_cast
    nlinarith [hx, hxs]

lemma listMean_bounds (a b : ℚ) (l : List ℚ) (hne : l ≠ [])
    (h : ∀ x ∈ l, a ≤ x ∧ x ≤ b) : a ≤ listMean l ∧ listMean l ≤ b := by
  have hlen : 0 < (l.length : ℚ) := by
    have : 0 < l.length := List.length_pos.mpr hne
    exact_mod_cast this
  constructor
  · rw [listMean, le_div_iff hlen]
    exact list_sum_lower a l (fun x hx => (h x hx).1)
  · rw [listMean, div_le_iff hlen]
    exact list_sum_upper b l (fun x hx => (h x hx).2)

lemma trend_map_get_of_mem (t : String) (h : t ∈ trend_strings) :
    ∃ q, trend_map_get t = some q := by
  simp only [trend_strings, List.mem_cons, List.not_mem_nil, or_false] at h
  rcases h with h | h | h <;> rw [h] <;> exact ⟨_, rfl⟩

lemma get_economic_multipliers_isSome (c : MarketConditions) (month : ℤ) (fluct : ℚ)
    (h : c.trend ∈ trend_strings) :
    ∃ F, get_economic_multipliers c month fluct = some F := by
  obtain ⟨q, hq⟩ := trend_map_get_of_mem _ h
  exact ⟨{ price := seasonal_factor month * (1.0 - (c.interest_rates - 4.0) / 100) * q * fluct
           rent := seasonal_factor month * (1.0 - (c.unemployment - 5.0) / 200) * fluct
           inventory := 1.0 / (seasonal_factor month * q) },
         by simp only [get_economic_multipliers, hq]⟩

/-- C4: for every month, when the trend label is one of the three
reachable ones, the sample sizes drawn are in the interval 80 to 120
and the days-on-market draws are in the interval 0 to 90 (what the
random primitives guarantee), generate_monthly_samples returns exactly
five snapshots, one per fixed category in the order Duplex, Triplex,
Fourplex, Apartment, Apartment Complex, and each snapshot has
inventory within 0 and its category sample size and days-on-market
within 0 and 90. -/
theorem C4_generate_monthly_samples_shape (st : MarketState) (month : ℤ) (d : MonthDraw)
    (htrend : st.market_conditions.trend ∈ trend_strings)
    (hsize : ∀ pt ∈ property_types,
      80 ≤ (d.catDraws pt).length ∧ (d.catDraws pt).length ≤ 120)
    (hdom : ∀ pt ∈ property_types, ∀ s ∈ d.catDraws pt, 0 ≤ s.dom ∧ s.dom ≤ 90) :
    ∃ data st2, generate_monthly_samples st month d = some (data, st2) ∧
      data.map (fun s => s.property_type) = property_types ∧
      data.length = 5 ∧
      ∀ pt ∈ property_types, ∀ s ∈ data, s.property_type = pt →
        0 ≤ s.inventory ∧ s.inventory ≤ ((d.catDraws pt).length : ℤ) ∧
        0 ≤ s.days_on_market ∧ s.days_on_market ≤ 90 := by
  obtain ⟨F, hF⟩ :=
    get_economic_multipliers_isSome st.market_conditions month d.fluctuation htrend
  refine ⟨property_types.map (fun pt => make_snapshot pt F (d.catDraws pt)),
    { history := history_set st.history month
        (property_types.map (fun pt => make_snapshot pt F (d.catDraws pt)))
      market_conditions :=
        if d.mutate then update_market_conditions d.mutDraw st.market_conditions
        else st.market_conditions },
    ?_, ?_, ?_, ?_⟩
  · simp only [generate_monthly_samples, hF]
  · simp [make_snapshot, List.map_map, Function.comp_def]
  · simp [property_types]
  · intro pt hpt s hs hty
    simp only [List.mem_map] at hs
    obtain ⟨pt2, hpt2, rfl⟩ := hs
    have hpt2eq : pt2 = pt := by simpa [make_snapshot] using hty
    subst hpt2eq
    obtain ⟨h80, _⟩ := hsize pt2 hpt2
    have hdoms := hdom pt2 hpt2
    have hne : d.catDraws pt2 ≠ [] := by
      intro hnil

      rw [hnil] at h80
      simp at h80
    have hinv := indicator_sum_bounds (d.catDraws pt2)
    have hmean := listMean_bounds 0 90 ((d.catDraws pt2).map (fun s => (s.dom : ℚ)))
      (by simpa using hne)
      (by
        intro x hx
        obtain ⟨s2, hs2, rfl⟩ := List.mem_map.mp hx
        obtain ⟨hd0, hd90⟩ := hdoms s2 hs2
        constructor
        · exact_mod_cast hd0
        · exact_mod_cast hd90)
    refine ⟨?_, ?_, ?_, ?_⟩
    · simpa [make_snapshot] using hinv.1
    · simpa [make_snapshot] using hinv.2
    · simpa [make_snapshot] using hmean.1
    · simpa [make_snapshot] using hmean.2

/-- C2: case analysis of get_market_trend.  Under two months of
history the result is exactly 0; with at least two months it is 0 when
either of the two most recent months lacks a snapshot of the category;
with exactly two months it is the percentage change of
avg_price_per_unit between them; and when a third prior month holds
the category it is the 0.7 and 0.3 blend of the latest and previous
pairwise changes, with no deeper blending. -/
theorem C2_get_market_trend_cases (h : History) (pt : String) :
    (h.length < 2 → get_market_trend h pt = 0) ∧
    (2 ≤ h.length →
      (find_snapshot pt (dict_get h (trend_month h 0)) = none ∨
       find_snapshot pt (dict_get h (trend_month h 1)) = none) →
      get_market_trend h pt = 0) ∧
    (∀ c p, h.length = 2 →
      find_snapshot pt (dict_get h (trend_month h 0)) = some c →
      find_snapshot pt (dict_get h (trend_month h 1)) = some p →
      get_market_trend h pt =
        ((c.avg_price_per_unit - p.avg_price_per_unit) / p.avg_price_per_unit) * 100) ∧
    (∀ c p o, 2 < h.length →
      find_snapshot pt (dict_get h (trend_month h 0)) = some c →
      find_snapshot pt (dict_get h (trend_month h 1)) = some p →
      find_snapshot pt (dict_get h (trend_month h 2)) = some o →
      get_market_trend h pt =
        (((c.avg_price_per_unit - p.avg_price_per_unit) / p.avg_price_per_unit) * 100) * 0.7 +
        (((p.avg_price_per_unit - o.avg_price_per_unit) / o.avg_price_per_unit) * 100) * 0.3) := by
  refine ⟨?_, ?_, ?_, ?_⟩
  · intro hlt
    simp [get_market_trend, hlt]
  · intro hge hor
    unfold get_market_trend
    rw [if_neg (by omega)]
    rcases hc : find_snapshot pt (dict_get h (trend_month h 0)) with _ | c
    · simp [hc]
    · rcases hor with h0 | h0
      · rw [hc] at h0
        exact absurd h0 (by simp)
      · simp [h0]
  · intro c p h2 hc hp
    unfold get_market_trend
    rw [if_neg (by omega)]
    simp only [hc, hp]
    rw [if_neg (by omega)]
  · intro c p o hlen hc hp ho
    unfold get_market_trend
    rw [if_neg (by omega)]
    simp only [hc, hp]
    rw [if_pos (by omega)]
    simp only [ho]

/-- A fixed snapshot used by concrete witnesses below. -/
def snapW (pt : String) (price : ℚ) : MarketSnapshot :=
  { property_type := pt, avg_price_per_unit := price, avg_rent_per_unit := 1500,
    avg_cap_rate := 5, inventory := 20, days_on_market := 45, temperature := none }

/-- A three-month history used by the C2 witness. -/
def histW : History :=
  [(1, [snapW "Duplex" 100]), (2, [snapW "Duplex" 110]), (3, [snapW "Duplex" 121])]

/-- Witness for C2: on the concrete three-month history the blended
trend of the Duplex category evaluates as claimed. -/
theorem C2_witness : get_market_trend histW "Duplex" = 10 := by
  have h4 := (C2_get_market_trend_cases histW "Duplex").2.2.2
    (snapW "Duplex" 121) (snapW "Duplex" 110) (snapW "Duplex" 100)
    (by decide) rfl rfl rfl
  rw [h4]
  norm_num [snapW]

lemma foldl_best_decomp {α : Type} (key : α → ℚ) :
    ∀ (xs : List α) (x : α),
    ∃ l1 s l2, x :: xs = l1 ++ s :: l2 ∧
      xs.foldl (fun acc y => if key acc < key y then y else acc) x = s ∧
      (∀ t ∈ x :: xs, key t ≤ key s) ∧ (∀ t ∈ l1, key t < key s) := by
  intro xs
  induction xs with
  | nil =>
    intro x
    exact ⟨[], x, [], rfl, rfl, by simp, by simp⟩
  | cons y ys ih =>
    intro x
    by_cases hxy : key x < key y
    · obtain ⟨l1, s, l2, hdec, hfold, hmax, hfirst⟩ := ih y
      refine ⟨x :: l1, s, l2, ?_, ?_, ?_, ?_⟩
      · rw [List.cons_append, ← hdec]
      · simpa [List.foldl_cons, if_pos hxy] using hfold
      · intro t ht
        rcases List.mem_cons.mp ht with rfl | ht
        · exact le_of_lt (lt_of_lt_of_le hxy (hmax y (List.mem_cons_self _ _)))
        · exact hmax t ht
      · intro t ht
        rcases List.mem_cons.mp ht with rfl | ht
        · exact lt_of_lt_of_le hxy (hmax y (List.mem_cons_self _ _))
        · exact hfirst t ht
    · obtain ⟨l1, s, l2, hdec, hfold, hmax, hfirst⟩ := ih x
      cases l1 with
      | nil =>
        simp only [List.nil_append, List.cons.injEq] at hdec
        obtain ⟨rfl, rfl⟩ := hdec
        refine ⟨[], x, y :: ys, rfl, ?_, ?_, by simp⟩
        · simpa [List.foldl_cons, if_neg hxy] using hfold
        · intro t ht
          rcases List.mem_cons.mp ht with rfl | ht
          · exact le_refl _
          · rcases List.mem_cons.mp ht with rfl | ht
            · exact le_of_not_lt hxy
            · exact hmax t (List.mem_cons_of_mem _ ht)
      | cons a l1' =>
        simp only [List.cons_append, List.cons.injEq] at hdec
        obtain ⟨rfl, hys⟩ := hdec
        refine ⟨x :: y :: l1', s, l2, ?_, ?_, ?_, ?_⟩
        · simp [hys]
        · simpa [List.foldl_cons, if_neg hxy] using hfold
        · intro t ht
          rcases List.mem_cons.mp ht with rfl | ht
          · exact hmax _ (List.mem_cons_self _ _)
          · rcases List.mem_cons.mp ht with rfl | ht
            · exact (le_of_not_lt hxy).trans (hmax _ (List.mem_cons_self _ _))
            · exact hmax t (List.mem_cons_of_mem _ ht)
        · intro t ht
          rcases List.mem_cons.mp ht with rfl | ht
          · exact hfirst _ (List.mem_cons_self _ _)
          · rcases List.mem_cons.mp ht with rfl | ht
            · exact lt_of_le_of_lt (le_of_not_lt hxy)
                (hfirst _ (List.mem_cons_self _ _))
            · exact hfirst t (List.mem_cons_of_mem _ ht)

/-- C7: get_best_investment yields None on empty history; otherwise it
yields the snapshot with maximal avg_cap_rate among the latest
(annotated) snapshot list, and every snapshot strictly before the
returned one in the list order (the category generation order Duplex,
Triplex, Fourplex, Apartment, Apartment Complex) has a strictly
smaller avg_cap_rate, so ties are broken in favour of the first
encountered. -/
theorem C7_get_best_investment (st : MarketState) :
    (st.history = [] → (get_best_investment st).1 = none) ∧
    (st.history ≠ [] →
      ∀ x xs, (get_latest_market_data st).1 = x :: xs →
      ∃ l1 s l2, (get_best_investment st).1 = some s ∧
        x :: xs = l1 ++ s :: l2 ∧
        (∀ t ∈ x :: xs, t.avg_cap_rate ≤ s.avg_cap_rate) ∧
        (∀ t ∈ l1, t.avg_cap_rate < s.avg_cap_rate)) := by
  constructor
  · intro he
    simp [get_best_investment, he]
  · intro hne x xs hl
    obtain ⟨l1, s, l2, hdec, hfold, hmax, hfirst⟩ :=
      foldl_best_decomp (fun t : MarketSnapshot => t.avg_cap_rate) xs x
    refine ⟨l1, s, l2, ?_, hdec, hmax, hfirst⟩
    simp only [get_best_investment, if_neg hne, hl, pyMaxBy, hfold]

/-- Stored snapshots for the C7 witness (balanced temperature zone). -/
def snapB1 : MarketSnapshot :=
  { property_type := "Duplex", avg_price_per_unit := 100, avg_rent_per_unit := 10,
    avg_cap_rate := 4, inventory := 20, days_on_market := 45, temperature := none }

/-- Second stored snapshot for the C7 witness, with the larger cap rate. -/
def snapB2 : MarketSnapshot :=
  { property_type := "Triplex", avg_price_per_unit := 90, avg_rent_per_unit := 11,
    avg_cap_rate := 7, inventory := 20, days_on_market := 45, temperature := none }

/-- Empty-history state for the C7 witness. -/
def stEmptyW : MarketState :=
  { history := []
    market_conditions := { trend := "stable", interest_rates := 4, unemployment := 5 } }

/-- One-month state for the C7 witness. -/
def stBW : MarketState :=
  { history := [(1, [snapB1, snapB2])]
    market_conditions := { trend := "stable", interest_rates := 4, unemployment := 5 } }

/-- Witness for C7: the empty case and the concrete nonempty case. -/
theorem C7_witness :
    (get_best_investment stEmptyW).1 = none ∧
    ∃ l1 s l2, (get_best_investment stBW).1 = some s ∧
      { snapB1 with temperature := some "Balanced Market" } ::
        [{ snapB2 with temperature := some "Balanced Market" }] = l1 ++ s :: l2 ∧
      (∀ t ∈ { snapB1 with temperature := some "Balanced Market" } ::
        [{ snapB2 with temperature := some "Balanced Market" }],
        t.avg_cap_rate ≤ s.avg_cap_rate) ∧
      (∀ t ∈ l1, t.avg_cap_rate < s.avg_cap_rate) := by
  constructor
  · exact (C7_get_best_investment stEmptyW).1 rfl
  · exact (C7_get_best_investment stBW).2 (by decide)
      { snapB1 with temperature := some "Balanced Market" }
      [{ snapB2 with temperature := some "Balanced Market" }] (by decide)

/-- A fixed sample draw used by concrete witnesses below. -/
def sampleDrawW : SampleDraw :=
  { price_jitter := 1, rent_jitter := 1, units_draw := 10, price_base := 200000,
    mgmt_fee := 6, rent_base := 2000, maint := 500, expense_var := 0,
    distressed := false, distress_price := 1, distress_rent := 1,
    available := true, dom := 30 }

/-- A fixed market state used by concrete witnesses below. -/
def stateW : MarketState :=
  { history := []
    market_conditions := { trend := "stable", interest_rates := 4, unemployment := 5 } }

/-- A month draw with 80 identical samples per category. -/
def monthDrawW : MonthDraw :=
  { fluctuation := 1, mutate := false,
    mutDraw := { d_ir := 0, d_un := 0, change_trend := false, pick := 0 },
    catDraws := fun _ => List.replicate 80 sampleDrawW }

/-- Witness for C4: at the concrete state and draws, the returned
snapshot list carries exactly the five categories in order. -/
theorem C4_witness :
    (generate_monthly_samples stateW 1 monthDrawW).map
      (fun r => r.1.map (fun s => s.property_type)) = some property_types := by
  obtain ⟨data, st2, heq, hmap, -, -⟩ :=
    C4_generate_monthly_samples_shape stateW 1 monthDrawW
      (by simp [stateW, trend_strings])
      (by intro pt hpt; simp [monthDrawW])
      (by
        intro pt hpt s hs
        have : s = sampleDrawW := List.eq_of_mem_replicate hs
        subst this
        simp [sampleDrawW])
  rw [heq]
  simp [hmap]

/-! ## Frame behaviour of the latest query (claim C5) -/

lemma latest_key_mem (h : History) (hne : h ≠ []) :
    latest_key h ∈ h.map Prod.fst := by
  have hkeys : h.map Prod.fst ≠ [] := by
    intro hk
    exact hne (List.map_eq_nil.mp hk)
  obtain ⟨a, ha⟩ : ∃ a, (h.map Prod.fst).max? = some a := by
    cases hmx : (h.map Prod.fst).max? with
    | none => exact absurd (List.max?_eq_none_iff.mp hmx) hkeys
    | some a => exact ⟨a, rfl⟩
  have : latest_key h = a := by simp [latest_key, ha]
  rw [this]
  exact List.max?_mem (by intro x y; exact max_choice x y) ha

lemma history_set_mem_key (h : History) (m : ℤ) (v : List MarketSnapshot)
    (hmem : m ∈ h.map Prod.fst) :
    h.any (fun p => p.1 == m) = true := by
  obtain ⟨p, hp, hp1⟩ := List.mem_map.mp hmem
  exact List.any_eq_true.mpr ⟨p, hp, by simp [hp1]⟩

lemma history_set_keys (h : History) (m : ℤ) (v : List MarketSnapshot)
    (hmem : h.any (fun p => p.1 == m) = true) :
    (history_set h m v).map Prod.fst = h.map Prod.fst := by
  simp only [history_set, if_pos hmem, List.map_map]
  apply List.map_congr_left
  intro p hp
  by_cases hpm : p.1 = m
  · simp [hpm]
  · simp [hpm]

lemma history_set_other (h : History) (m : ℤ) (v : List MarketSnapshot)
    (hmem : h.any (fun p => p.1 == m) = true) :
    ∀ p ∈ history_set h m v, p.1 ≠ m → p ∈ h := by
  intro p hp hne
  simp only [history_set, if_pos hmem] at hp
  obtain ⟨q, hq, hqp⟩ := List.mem_map.mp hp
  by_cases hqm : q.1 = m
  · rw [if_pos (by simp [hqm])] at hqp
    exact absurd (by rw [← hqp]) hne
  · rw [if_neg (by simp [hqm])] at hqp
    rw [← hqp]
    exact hq

/-- C5 counterexample: the claim says the stored History is left
unchanged by the latest query, but on a concrete one-month state
get_latest_market_data writes the temperature annotation into the
stored snapshots, so the stored history differs after the query. -/
theorem C5_counterexample :
    (get_latest_market_data stBW).2.history ≠ stBW.history := by
  decide

/-- C5 amended: get_latest_market_data is the identity on an empty
history; on a nonempty history it returns the latest-month snapshots
with the temperature label (hot when days-on-market below 30 and
inventory below 10, cold when above 60 and above 25, balanced
otherwise) set on each, and it DOES write those annotated snapshots
back into the stored History in place of the latest-month entry: the
aggregate fields, the month keys and all other months are unchanged,
but the stored snapshots of the latest month now carry the label
(recomputed on every read) rather than staying untouched. -/
theorem C5_latest_annotates_stored_history (st : MarketState) :
    (st.history = [] → get_latest_market_data st = ([], st)) ∧
    (st.history ≠ [] →
      (get_latest_market_data st).1 =
        (dict_get st.history (latest_key st.history)).map
          (fun s => { s with temperature := some (calculate_market_temperature s) }) ∧
      (get_latest_market_data st).2.history =
        history_set st.history (latest_key st.history)
          ((dict_get st.history (latest_key st.history)).map
            (fun s => { s with temperature := some (calculate_market_temperature s) })) ∧
      (get_latest_market_data st).2.market_conditions = st.market_conditions ∧
      ((get_latest_market_data st).2.history).map Prod.fst = st.history.map Prod.fst ∧
      ∀ p ∈ (get_latest_market_data st).2.history,
        p.1 ≠ latest_key st.history → p ∈ st.history) := by
  constructor
  · intro he
    simp [get_latest_market_data, he]
  · intro hne
    have hmem := history_set_mem_key st.history (latest_key st.history)
      ((dict_get st.history (latest_key st.history)).map
        (fun s => { s with temperature := some (calculate_market_temperature s) }))
      (latest_key_mem st.history hne)
    refine ⟨?_, ?_, ?_, ?_, ?_⟩
    · simp [get_latest_market_data, hne]
    · simp [get_latest_market_data, hne]
    · simp [get_latest_market_data, hne]
    · simp only [get_latest_market_data, if_neg hne]
      exact history_set_keys _ _ _ hmem
    · simp only [get_latest_market_data, if_neg hne]
      exact history_set_other _ _ _ hmem

/-- Witness for C5 amended: the empty case at a concrete empty state
and the key-preservation at a concrete one-month state. -/
theorem C5_witness :
    get_latest_market_data stEmptyW = ([], stEmptyW) ∧
    ((get_latest_market_data stBW).2.history).map Prod.fst =
      stBW.history.map Prod.fst :=
  ⟨(C5_latest_annotates_stored_history stEmptyW).1 rfl,
   ((C5_latest_annotates_stored_history stBW).2 (by decide)).2.2.2.1⟩

/-! ## Order of mutation and multiplier computation (claim C1) -/

/-- C1 amended: generate_monthly_samples computes the economic
multipliers for the month from the PRE-mutation market conditions
(line 72 of market.py runs before the 10 percent mutation on lines 75
and 76); when the mutation fires, it changes only the stored
conditions carried into later months, never the multipliers used for
the samples of this month. -/
theorem C1_mutation_after_multipliers (st : MarketState) (month : ℤ) (d : MonthDraw)
    (hmut : d.mutate = true)
    (htrend : st.market_conditions.trend ∈ trend_strings) :
    ∃ F, get_economic_multipliers st.market_conditions month d.fluctuation = some F ∧
      generate_monthly_samples st month d =
        some (property_types.map (fun pt => make_snapshot pt F (d.catDraws pt)),
              { history := history_set st.history month
                  (property_types.map (fun pt => make_snapshot pt F (d.catDraws pt)))
                market_conditions :=
                  update_market_conditions d.mutDraw st.market_conditions }) := by
  obtain ⟨F, hF⟩ := get_economic_multipliers_isSome st.market_conditions month d.fluctuation htrend
  exact ⟨F, hF, by simp only [generate_monthly_samples, hF, hmut, if_pos]⟩

/-- The mutation draw used by the C1 concrete instance: it raises the
interest rate by 0.25 (and takes no trend change). -/
def mutDrawC1 : MutDraw :=
  { d_ir := 1/4, d_un := 0, change_trend := false, pick := 0 }

/-- A month draw whose 10 percent mutation coin fires, with one sample
for the Duplex category. -/
def monthDrawC1 : MonthDraw :=
  { fluctuation := 1, mutate := true, mutDraw := mutDrawC1,
    catDraws := fun pt => if pt = "Duplex" then [sampleDrawW] else [] }

/-- The multipliers that month 10 would get from the already-mutated
conditions (interest rate 4.25): price factor 399/400. -/
def mutatedFactorsC1 : Multipliers :=
  { price := 399/400, rent := 1, inventory := 1 }

/-- Witness for C1 amended: at the concrete state and draws, the
post-state conditions are the mutated ones. -/
theorem C1_witness :
    (generate_monthly_samples stateW 10 monthDrawC1).map
      (fun r => r.2.market_conditions) =
      some (update_market_conditions monthDrawC1.mutDraw stateW.market_conditions) := by
  obtain ⟨F, hF, heq⟩ := C1_mutation_after_multipliers stateW 10 monthDrawC1 rfl
    (by simp [stateW, trend_strings])
  rw [heq]
  rfl

/-- C1 counterexample: the claim says that when the mutation fires the
multipliers used for the month derive from the mutated conditions.  At
this concrete input the mutation fires and the mutated conditions
would give the price factor 399/400 (hence a Duplex average price of
199500), but the returned data was built from the pre-mutation factor
1 (average price 200000), so the claim fails. -/
theorem C1_counterexample :
    monthDrawC1.mutate = true ∧
    get_economic_multipliers
        (update_market_conditions monthDrawC1.mutDraw stateW.market_conditions)
        10 monthDrawC1.fluctuation = some mutatedFactorsC1 ∧
    (generate_monthly_samples stateW 10 monthDrawC1).map (fun r => r.1) ≠
      some (property_types.map
        (fun pt => make_snapshot pt mutatedFactorsC1 (monthDrawC1.catDraws pt))) := by
  refine ⟨rfl, ?_, ?_⟩
  · norm_num +decide [get_economic_multipliers, update_market_conditions, stateW,
      mutDrawC1, monthDrawC1, trend_map_get, seasonal_factor, seasonal_factor_table,
      month_index, mutatedFactorsC1]
  · norm_num +decide [generate_monthly_samples, get_economic_multipliers, stateW,
      monthDrawC1, mutDrawC1, sampleDrawW, trend_map_get, seasonal_factor,
      seasonal_factor_table, month_index, property_types, make_snapshot,
      generate_property_with_economics, generate_units, listMean, pyInt,
      Property.cap_rate, Property.total_price, Property.net_income,
      Property.gross_income, Property.total_expenses, update_market_conditions,
      history_set, mutatedFactorsC1]

/-! ## Persistence surface (claim C6, src/game/player.py) -/

/-- The exported form of one snapshot: Player.save writes
snapshot.__dict__, so every field of the dataclass is present (and a
temperature attribute when one was attached). -/
structure SnapshotDict where
  property_type : Option String := none
  avg_price_per_unit : Option ℚ := none
  avg_rent_per_unit : Option ℚ := none
  avg_cap_rate : Option ℚ := none
  inventory : Option ℤ := none
  days_on_market : Option ℚ := none
  temperature : Option String := none
deriving DecidableEq

/-- snapshot.__dict__ as written by Player.save for one stored
snapshot. -/
def export_snapshot (s : MarketSnapshot) : SnapshotDict :=
  { property_type := some s.property_type
    avg_price_per_unit := some s.avg_price_per_unit
    avg_rent_per_unit := some s.avg_rent_per_unit
    avg_cap_rate := some s.avg_cap_rate
    inventory := some s.inventory
    days_on_market := some s.days_on_market
    temperature := s.temperature }

/-- The keyword arguments provided at a call of the MarketSnapshot
dataclass constructor. -/
structure SnapshotArgs where
  property_type : Option String := none
  avg_price_per_unit : Option ℚ := none
  avg_rent_per_unit : Option ℚ := none
  avg_cap_rate : Option ℚ := none
  inventory : Option ℤ := none
  days_on_market : Option ℚ := none

/-- A call of the MarketSnapshot dataclass constructor: all six fields
are required and have no defaults, so a call missing any of them
raises TypeError, modelled as none. -/
def marketSnapshot_call (a : SnapshotArgs) : Option MarketSnapshot :=
  match a.property_type, a.avg_price_per_unit, a.avg_rent_per_unit,
        a.avg_cap_rate, a.inventory, a.days_on_market with
  | some pt, some p, some r, some c, some i, some dom =>
      some { property_type := pt, avg_price_per_unit := p, avg_rent_per_unit := r,
             avg_cap_rate := c, inventory := i, days_on_market := dom,
             temperature := none }
  | _, _, _, _, _, _ => none

/-- The snapshot-reconstruction expression of Player.load (lines 82 to
87 of player.py): it reads the category and the three averages from
the saved dict and calls the constructor with only those four keyword
arguments; inventory and days_on_market are never passed.  A missing
dict key would raise KeyError (none). -/
def load_snapshot (s : SnapshotDict) : Option MarketSnapshot :=
  match s.property_type, s.avg_price_per_unit, s.avg_rent_per_unit, s.avg_cap_rate with
  | some pt, some p, some r, some c =>
      marketSnapshot_call { property_type := some pt, avg_price_per_unit := some p,
                            avg_rent_per_unit := some r, avg_cap_rate := some c }
  | _, _, _, _ => none

/-- The per-month loop body of the market-history loading in
Player.load: every snapshot dict of the month must reconstruct. -/
def load_snapshots (l : List SnapshotDict) : Option (List MarketSnapshot) :=
  l.mapM load_snapshot

/-- C6: the claim says a fully-populated exported history entry is
re-imported into a MarketSnapshot rather than failing.  In the code
the constructor call omits the required inventory and days_on_market
fields, so the reconstruction raises TypeError on EVERY exported
snapshot: the load of any saved month fails.  (TypeError is also
outside the except clause of Player.load, so the failure is a crash,
not even a clean restart.) -/
theorem C6_load_fails_on_exported_snapshot :
    load_snapshot (export_snapshot snapB1) = none ∧
    load_snapshots [export_snapshot snapB1] = none :=
  ⟨rfl, rfl⟩
